import Mathlib

/-!
Verification development for the trust.core repository.

Shallow embedding of the certificate data model, the VC bridge
(src/models/VCBridge.ts), the CA lifecycle operations (src/models/CAModel.ts),
the import plan (src/plans/CAPlan.ts), the trust evaluator
(src/models/TrustModel.ts) and the audit cache (src/services/AuditTrailService.ts).

Conventions of the embedding:
* JS timestamps (milliseconds since epoch) are `Int`; `new Date(ms).toISOString()`
  followed by `new Date(iso).getTime()` is the identity at millisecond precision,
  so ISO-8601 date strings are represented by their millisecond value.
* JS string-union fields (`certificateType`, `status`) are `String`, as at runtime.
* Free-form JS objects (claim bags, `credentialSubject`) are association lists
  with JS spread semantics: a later binding wins, and a binding whose value is
  `undefined` makes the key absent for JSON purposes.
* Trust scores are `ℚ`; every mutation of the score in the source is clamped
  with `Math.min`/`Math.max`, so rational arithmetic mirrors the bounds exactly.
-/

namespace TrustCore

/-- A JSON-compatible JavaScript value as used in claim bags (strings, numbers,
booleans and the JS `undefined`). -/
inductive JsVal where
  | str : String → JsVal
  | num : Int → JsVal
  | boolVal : Bool → JsVal
  | undef : JsVal
deriving DecidableEq, Repr

/-- A JavaScript object as an association list; spread appends on the right and
a later binding for the same key wins. -/
abbrev JsObj := List (String × JsVal)

/-- Raw property access `o[k]`: the value of the last binding of `k`, if any. -/
def jsRawGet (o : JsObj) (k : String) : Option JsVal :=
  match o with
  | [] => none
  | (k0, v) :: rest =>
      match jsRawGet rest k with
      | some w => some w
      | none => if k0 = k then some v else none

/-- Property access under JSON semantics: a binding to `undefined` counts as
absent (JSON.stringify drops such properties). -/
def jsGet (o : JsObj) (k : String) : Option JsVal :=
  match jsRawGet o k with
  | some JsVal.undef => none
  | some v => some v
  | none => none

/-- Property access expecting a string value. -/
def jsGetStr (o : JsObj) (k : String) : Option String :=
  match jsRawGet o k with
  | some (JsVal.str s) => some s
  | _ => none

/-- Models JS `s.startsWith(p)`. -/
def strStartsWith (s p : String) : Bool :=
  p.data.isPrefixOf s.data

/-- Replace the leftmost occurrence of `pat` in a character list by `repl`,
as JS `String.prototype.replace` does with a string pattern. -/
def replaceFirstList (s pat repl : List Char) : List Char :=
  match s with
  | [] => []
  | c :: rest =>
      if pat.isPrefixOf (c :: rest) then repl ++ (c :: rest).drop pat.length
      else c :: replaceFirstList rest pat repl

/-- Models JS `s.replace(pat, repl)` (first occurrence only). -/
def jsReplaceFirst (s pat repl : String) : String :=
  String.mk (replaceFirstList s.data pat.data repl.data)

/-- Models JS `s.toLowerCase()` as a character-wise map. -/
def strToLower (s : String) : String :=
  String.mk (s.data.map Char.toLower)

/-! ## DIDConverter (src/models/VCBridge.ts lines 20-44) -/

/-- The `did:one:sha256:` DID method prefix. -/
def didMethod : String := "did:one:sha256:"

namespace DIDConverter

/-- Models `hashToDID`: prefix the hash with the DID method. -/
def hashToDID (hash : String) : String :=
  didMethod ++ hash

/-- Models `didToHash`: strip the DID method prefix, `null` (here `none`) when the
string does not start with it. Under the `startsWith` guard the first
occurrence of the pattern that `replace` removes is the prefix itself,
so stripping is dropping the prefix length. -/
def didToHash (did : String) : Option String :=
  if strStartsWith did didMethod then some (jsReplaceFirst did didMethod "")
  else none

end DIDConverter

/-! ## Certificate (src/recipes/Certificate.ts) -/

/-- The `Certificate` recipe: a versioned, time-bound, signed attestation.
Field names and optionality follow the TypeScript interface; there is no
field to hold a revocation reason. -/
structure Certificate where
  id : String
  certificateType : String
  status : String
  subject : String
  subjectPublicKey : String
  issuer : String
  issuerPublicKey : String
  validFrom : Int
  validUntil : Int
  issuedBy : Option String
  chainDepth : Int
  claims : Option JsObj
  issuedAt : Int
  serialNumber : String
  version : Int
  signature : Option String
deriving DecidableEq, Repr

/-! ## VerifiableCredential (src/recipes, unnamed part_002) -/

/-- The `issuer` field of a VC: a DID string or an object with `id` and an
optional `name`. -/
inductive VCIssuer where
  | str : String → VCIssuer
  | obj : String → Option JsVal → VCIssuer
deriving DecidableEq, Repr

/-- An `Ed25519Signature2020` proof block; `created` is the ISO-8601 timestamp
represented by its millisecond value. -/
structure W3CProof where
  type : String
  created : Int
  proofPurpose : String
  verificationMethod : String
  proofValue : String
deriving DecidableEq, Repr

/-- The `VerifiableCredential` recipe. `context` stands for the `@context`
array; `oneMetadataVersion` for `_oneMetadata.version`. -/
structure VerifiableCredential where
  context : List String
  id : String
  type : List String
  issuer : VCIssuer
  issuanceDate : Int
  expirationDate : Option Int
  credentialSubject : JsObj
  proof : Option W3CProof
  oneMetadataVersion : Option Int
deriving DecidableEq, Repr

/-! ## ProofConverter (src/models/VCBridge.ts lines 49-86) -/

namespace ProofConverter

/-- Models `toW3CProof`: wrap a native signature in an `Ed25519Signature2020` block. -/
def toW3CProof (signature : String) (issuerDID : String) (created : Int) : W3CProof :=
  { type := "Ed25519Signature2020"
    created := created
    proofPurpose := "assertionMethod"
    verificationMethod := issuerDID ++ "#keys-1"
    proofValue := signature }

/-- Models `fromW3CProof`: extract the signature, `null` for any other proof type. -/
def fromW3CProof (proof : W3CProof) : Option String :=
  if proof.type = "Ed25519Signature2020" then some proof.proofValue else none

end ProofConverter

/-! ## VCBridge (src/models/VCBridge.ts lines 93-236) -/

namespace VCBridge

/-- Models `VCBridge.certificateToVC` (lines 97-139). The proof is attached only when
`cert.signature` is truthy, i.e. present and not the empty string. -/
def certificateToVC (cert : Certificate) : VerifiableCredential :=
  let issuerDID := DIDConverter.hashToDID cert.issuer
  let subjectDID :=
    if strStartsWith cert.subject "did:" then cert.subject
    else DIDConverter.hashToDID cert.subject
  { context := ["https://www.w3.org/2018/credentials/v1",
                "https://w3id.org/security/suites/ed25519-2020/v1"]
    id := "urn:one:cert:" ++ cert.id
    type := ["VerifiableCredential", cert.certificateType ++ "Certificate"]
    issuer := VCIssuer.obj issuerDID (cert.claims.bind (fun o => jsRawGet o "name"))
    issuanceDate := cert.issuedAt
    expirationDate := some cert.validUntil
    credentialSubject :=
      [("id", JsVal.str subjectDID), ("publicKey", JsVal.str cert.subjectPublicKey)]
        ++ cert.claims.getD []
    proof :=
      match cert.signature with
      | some s =>
          if s = "" then none
          else some (ProofConverter.toW3CProof s issuerDID cert.issuedAt)
      | none => none
    oneMetadataVersion := some cert.version }

/-- Models `VCBridge.vcToCertificate` (lines 192-236). Throwing on an unparseable DID
is modelled by `Except.error`; a missing `credentialSubject.publicKey` (a JS
`undefined` landing in a string field, impossible for bridge-produced VCs) is
modelled as the empty string. -/
def vcToCertificate (vc : VerifiableCredential) : Except String Certificate :=
  let certType :=
    match vc.type.find? (fun t => t ≠ "VerifiableCredential") with
    | none => "identity"
    | some t =>
        let s := strToLower (jsReplaceFirst t "Certificate" "")
        if s = "" then "identity" else s
  let issuerDID := match vc.issuer with | VCIssuer.str s => s | VCIssuer.obj i _ => i
  match DIDConverter.didToHash issuerDID with
  | none => Except.error "Invalid DID format in VC"
  | some issuerHash =>
      match (jsGetStr vc.credentialSubject "id").bind DIDConverter.didToHash with
      | none => Except.error "Invalid DID format in VC"
      | some subjectHash =>
          let signature :=
            match vc.proof.bind ProofConverter.fromW3CProof with
            | some s => if s = "" then none else some s
            | none => none
          Except.ok
            { id := jsReplaceFirst vc.id "urn:one:cert:" ""
              certificateType := certType
              status := "valid"
              subject := subjectHash
              subjectPublicKey := (jsGetStr vc.credentialSubject "publicKey").getD ""
              issuer := issuerHash
              issuerPublicKey := ""
              validFrom := vc.issuanceDate
              validUntil := vc.expirationDate.getD 0
              issuedBy := none
              chainDepth := 1
              claims := some (vc.credentialSubject
                ++ [("id", JsVal.undef), ("publicKey", JsVal.undef)])
              issuedAt := vc.issuanceDate
              serialNumber := vc.id
              version :=
                match vc.oneMetadataVersion with
                | some v => if v = 0 then 1 else v
                | none => 1
              signature := signature }

end VCBridge

/-! ## CAModel (src/models/CAModel.ts)

The version store of one certificate identity is modelled by the list of
versions that `oneCore.getIdObject(certificateId)` returns, oldest first;
`versions[versions.length - 1]` is the latest version. `storeVersionedObject`
followed by `oneCore.sign(hash)` is modelled by an effect list; the hash of a
content-addressed object is represented by the object itself. -/

/-- One observable store interaction of a lifecycle operation. -/
inductive StoreEffect where
  | stored : Certificate → StoreEffect
  | signedObj : Certificate → StoreEffect
deriving DecidableEq, Repr

/-- Result of `CAModel.verifyCertificate`. -/
structure VerifyResult where
  valid : Bool
  reason : Option String
deriving DecidableEq, Repr

namespace CAModel

/-- Models `CAModel.verifyCertificate` (lines 337-367): status checks, then time
bounds. The signature branch of the source is an empty TODO — no signature
verification happens, so the embedding has no signature check either. -/
def verifyCertificate (certificate : Certificate) (now : Int) : VerifyResult :=
  if certificate.status = "revoked" then
    { valid := false, reason := some "Certificate is revoked" }
  else if certificate.status = "suspended" then
    { valid := false, reason := some "Certificate is suspended" }
  else if now < certificate.validFrom then
    { valid := false, reason := some "Certificate not yet valid" }
  else if now > certificate.validUntil then
    { valid := false, reason := some "Certificate has expired" }
  else
    { valid := true, reason := none }

/-- Models `CAModel.extendCertificate` (lines 230-251): take the latest version,
extend `validUntil` by `additionalDays` of milliseconds, bump `version`,
store and sign. -/
def extendCertificate (versions : List Certificate) (additionalDays : Int) :
    Except String (Certificate × List StoreEffect) :=
  match versions.getLast? with
  | none => Except.error "Certificate not found"
  | some latestCert =>
      let extendedCert : Certificate :=
        { latestCert with
          validUntil := latestCert.validUntil + additionalDays * (24 * 60 * 60 * 1000)
          version := latestCert.version + 1 }
      Except.ok (extendedCert, [StoreEffect.stored extendedCert, StoreEffect.signedObj extendedCert])

/-- Models `CAModel.reduceCertificate` (lines 257-283): reject a `newValidUntil` that
is not strictly earlier than the latest `validUntil`; no comparison against
the current time happens in the source. -/
def reduceCertificate (versions : List Certificate) (newValidUntil : Int) :
    Except String (Certificate × List StoreEffect) :=
  match versions.getLast? with
  | none => Except.error "Certificate not found"
  | some latestCert =>
      if newValidUntil ≥ latestCert.validUntil then
        Except.error "New validUntil must be earlier than current validUntil"
      else
        let reducedCert : Certificate :=
          { latestCert with
            validUntil := newValidUntil
            version := latestCert.version + 1 }
        Except.ok (reducedCert, [StoreEffect.stored reducedCert, StoreEffect.signedObj reducedCert])

/-- Models `CAModel.revokeCertificate` (lines 289-309): new version with
`status = 'revoked'` and `validUntil = Date.now() - 1`. The `reason` option is
accepted but never used by the source, and the `Certificate` recipe has no
field that could hold it. -/
def revokeCertificate (versions : List Certificate) (reason : Option String) (now : Int) :
    Except String (Certificate × List StoreEffect) :=
  match versions.getLast? with
  | none => Except.error "Certificate not found"
  | some latestCert =>
      let _ := reason
      let revokedCert : Certificate :=
        { latestCert with
          status := "revoked"
          validUntil := now - 1
          version := latestCert.version + 1 }
      Except.ok (revokedCert, [StoreEffect.stored revokedCert, StoreEffect.signedObj revokedCert])

end CAModel

/-! ## CAPlan (src/plans/CAPlan.ts) -/

namespace CAPlan

/-- Models `CAPlan.importVC` (lines 278-292): parse the JSON-LD document (the parsed
form is the `VerifiableCredential` itself), convert with
`VCBridge.vcToCertificate` and store unconditionally via
`storeVersionedObject`. The store is the list of already-stored objects; the
source performs no lookup of an existing version and no version comparison. -/
def importVC (store : List Certificate) (document : VerifiableCredential) :
    Except String (List Certificate × String) :=
  match VCBridge.vcToCertificate document with
  | Except.error e => Except.error e
  | Except.ok certificate => Except.ok (store ++ [certificate], certificate.id)

end CAPlan

/-! ## TrustModel (src/models/TrustModel.ts) -/

/-- The `TrustStatus` union. -/
inductive TrustStatus where
  | trusted
  | untrusted
  | pending
  | revoked
deriving DecidableEq, Repr

/-- The runtime string of a `TrustStatus` value. -/
def TrustStatus.text : TrustStatus → String
  | .trusted => "trusted"
  | .untrusted => "untrusted"
  | .pending => "pending"
  | .revoked => "revoked"

/-- The `TrustRelationship` recipe fields read by `evaluateTrust`; the ISO-8601
`lastVerified` and `validUntil` strings are represented by their millisecond
values. -/
structure TrustRelationship where
  peer : String
  peerPublicKey : String
  status : TrustStatus
  trustLevel : Option String
  establishedAt : Int
  lastVerified : Option Int
  validUntil : Option Int
deriving DecidableEq, Repr

/-- Outcome of the `trustedKeysManager.getKeyTrustInfo` interaction inside
`evaluateTrust`: no manager injected, a trusted key, an untrusted key, or a
thrown lookup error. -/
inductive CertLookup where
  | noManager
  | trustedKey
  | untrustedKey
  | lookupFailed
deriving DecidableEq, Repr

/-- The `TrustEvaluation` result type (types/trust-types.ts). -/
structure TrustEvaluation where
  level : ℚ
  confidence : ℚ
  reason : String
  trustLevel : Option String
deriving DecidableEq, Repr

namespace TrustModel

/-- The `switch (relationship.status)` block of `evaluateTrust`
(lines 291-308): the base `(level, confidence)` pair. -/
def baseScores : TrustStatus → ℚ × ℚ
  | .trusted => (9/10, 9/10)
  | .pending => (3/10, 4/10)
  | .untrusted => (1/10, 8/10)
  | .revoked => (0, 1)

/-- The certificate-validation block (lines 311-324): boost clamped at 1 for a
trusted key, reduction clamped at 0 when the lookup throws, unchanged
otherwise. -/
def certAdjust (lookup : CertLookup) (confidence : ℚ) : ℚ :=
  match lookup with
  | .trustedKey => min 1 (confidence + 2/10)
  | .lookupFailed => max 0 (confidence - 1/10)
  | _ => confidence

/-- The recency block (lines 327-335): `daysSinceVerification` is real-valued
millisecond arithmetic divided by 86 400 000. -/
def recencyAdjust (lastVerified : Option Int) (now : Int) (confidence : ℚ) : ℚ :=
  match lastVerified with
  | none => confidence
  | some lv =>
      let daysSinceVerification : ℚ := ((now : ℚ) - (lv : ℚ)) / (1000 * 60 * 60 * 24)
      if daysSinceVerification < 7 then min 1 (confidence + 1/10)
      else if daysSinceVerification > 30 then max 0 (confidence - 1/10)
      else confidence

/-- Models `TrustModel.evaluateTrust` (lines 276-355). `threw` models the outer
catch-all (any unexpected exception yields the `error` result); `relationship`
is what `getTrustRelationshipObject` returned; `lookup` the certificate
validation outcome; `now` the clock; `context` the context argument. -/
def evaluateTrust (threw : Bool) (relationship : Option TrustRelationship)
    (lookup : CertLookup) (now : Int) (context : String) : TrustEvaluation :=
  if threw then { level := 0, confidence := 0, reason := "error", trustLevel := none }
  else
    match relationship with
    | none => { level := 0, confidence := 0, reason := "unknown", trustLevel := none }
    | some rel =>
        let base := baseScores rel.status
        let level := base.1
        let confidence := recencyAdjust rel.lastVerified now (certAdjust lookup base.2)
        let expired : Bool := match rel.validUntil with
          | some vu => decide (vu < now)
          | none => false
        if expired then
          { level := 0, confidence := 1, reason := "expired", trustLevel := none }
        else if context = "file-transfer" ∧ level < 7/10 then
          { level := level, confidence := confidence
            reason := "insufficient_trust_for_file_transfer", trustLevel := none }
        else
          { level := level, confidence := confidence
            reason := rel.status.text, trustLevel := rel.trustLevel }

end TrustModel

/-! ## AuditTrailService (src/services/AuditTrailService.ts) -/

/-- An `AuditEvent` (lines 29-52); optional context fields kept as options. -/
structure AuditEvent where
  eventType : String
  timestamp : Int
  actor : String
  subject : Option String
  certificateId : Option String
  certificateVersion : Option Int
  reason : Option String
  success : Bool
  error : Option String
deriving DecidableEq, Repr

namespace AuditTrailService

/-- The in-memory cache update of `recordEvent` (lines 93-114): push the new
event, then `events.slice(-1000)` when the length exceeds 1000. `slice(-1000)`
keeps the last 1000 elements in order, i.e. drops `length - 1000` from the
front. -/
def recordEvent (events : List AuditEvent) (event : AuditEvent) : List AuditEvent :=
  let pushed := events ++ [event]
  if pushed.length > 1000 then pushed.drop (pushed.length - 1000) else pushed

end AuditTrailService

/-! ## Helper access functions and concrete example objects -/

/-- JSON-level access to an optional claim bag (an absent bag reads like an
empty one, as JS optional chaining and spread treat it). -/
def jsGetClaims (claims : Option JsObj) (k : String) : Option JsVal :=
  jsGet (claims.getD []) k

/-- A concrete certificate exercising the VC round trip: non-default
`chainDepth 0`, `validFrom` different from `issuedAt`, its own serial number
and a parent link. -/
def c1cert : Certificate :=
  { id := "cert:identity:abc:1"
    certificateType := "identity"
    status := "valid"
    subject := "abc123"
    subjectPublicKey := "pk-subject"
    issuer := "iss456"
    issuerPublicKey := "pk-issuer"
    validFrom := 500
    validUntil := 2000
    issuedBy := some "parenthash"
    chainDepth := 0
    claims := some [("name", JsVal.str "Alice")]
    issuedAt := 1000
    serialNumber := "sn-7"
    version := 3
    signature := some "sigbytes" }

/-- A concrete external VC document for the import plan. -/
def vc2demo : VerifiableCredential :=
  { context := ["https://www.w3.org/2018/credentials/v1",
                "https://w3id.org/security/suites/ed25519-2020/v1"]
    id := "urn:one:cert:cert:identity:bbb:1"
    type := ["VerifiableCredential", "IdentityCertificate"]
    issuer := VCIssuer.obj "did:one:sha256:aaa" none
    issuanceDate := 1000
    expirationDate := some 2000
    credentialSubject := [("id", JsVal.str "did:one:sha256:bbb"),
                          ("publicKey", JsVal.str "pk-b")]
    proof := some { type := "Ed25519Signature2020", created := 1000
                    proofPurpose := "assertionMethod"
                    verificationMethod := "did:one:sha256:aaa#keys-1"
                    proofValue := "sig-b" }
    oneMetadataVersion := some 1 }

/-- The certificate that `vcToCertificate` produces from `vc2demo`. -/
def c2demo : Certificate :=
  { id := "cert:identity:bbb:1"
    certificateType := "identity"
    status := "valid"
    subject := "bbb"
    subjectPublicKey := "pk-b"
    issuer := "aaa"
    issuerPublicKey := ""
    validFrom := 1000
    validUntil := 2000
    issuedBy := none
    chainDepth := 1
    claims := some [("id", JsVal.str "did:one:sha256:bbb"),
                    ("publicKey", JsVal.str "pk-b"),
                    ("id", JsVal.undef), ("publicKey", JsVal.undef)]
    issuedAt := 1000
    serialNumber := "urn:one:cert:cert:identity:bbb:1"
    version := 1
    signature := some "sig-b" }

/-- A stored certificate version used by the lifecycle examples: valid from
time 0 until 100000, version 1. -/
def p3cert : Certificate :=
  { id := "cert:device:ddd:1"
    certificateType := "device"
    status := "valid"
    subject := "ddd"
    subjectPublicKey := "pk-d"
    issuer := "iss"
    issuerPublicKey := "pk-i"
    validFrom := 0
    validUntil := 100000
    issuedBy := none
    chainDepth := 1
    claims := none
    issuedAt := 0
    serialNumber := "sn-3"
    version := 1
    signature := some "sig-d" }

/-- The version that revoking `p3cert` at time 5000 produces. -/
def p3revoked : Certificate :=
  { p3cert with status := "revoked", validUntil := 4999, version := 2 }

/-- A certificate inside its validity window whose signature is garbage that
cannot verify against any key. -/
def p4cert : Certificate :=
  { id := "cert:identity:eee:1"
    certificateType := "identity"
    status := "valid"
    subject := "eee"
    subjectPublicKey := "pk-e"
    issuer := "iss"
    issuerPublicKey := "pk-i"
    validFrom := 0
    validUntil := 100000
    issuedBy := none
    chainDepth := 1
    claims := none
    issuedAt := 0
    serialNumber := "sn-4"
    version := 1
    signature := some "garbage-not-a-signature" }

/-! # Theorems

Supporting lemmas first, then one theorem (with counterexample and witness
where applicable) per claim. -/

/-- A list is a prefix of itself followed by anything (Boolean form). -/
theorem isPrefixOf_self_append (l t : List Char) : l.isPrefixOf (l ++ t) := by
  induction l with
  | nil => simp [List.isPrefixOf]
  | cons a as ih => simp [List.isPrefixOf, ih]

/-- Replacing the first occurrence of a nonempty pattern at the very front. -/
theorem replaceFirstList_self_append (pat rest repl : List Char) (h : pat ≠ []) :
    replaceFirstList (pat ++ rest) pat repl = repl ++ rest := by
  cases pat with
  | nil => exact absurd rfl h
  | cons a as =>
      show replaceFirstList (a :: (as ++ rest)) (a :: as) repl = repl ++ rest
      rw [replaceFirstList]
      rw [if_pos]
      · rw [List.length_cons, List.drop_succ_cons, List.drop_left]
      · rw [← List.cons_append]
        exact isPrefixOf_self_append (a :: as) rest

/-- String-level version of `replaceFirstList_self_append`. -/
theorem jsReplaceFirst_self_append (p x repl : String) (h : p ≠ "") :
    jsReplaceFirst (p ++ x) p repl = repl ++ x := by
  have hd : p.data ≠ [] := by
    intro hc
    exact h (by cases p with | mk d => cases hc; rfl)
  show String.mk (replaceFirstList (p ++ x).data p.data repl.data) = repl ++ x
  rw [String.data_append, replaceFirstList_self_append _ _ _ hd, ← String.data_append]

/-- The JS `startsWith` test holds on an exact prefix. -/
theorem strStartsWith_self_append (p x : String) : strStartsWith (p ++ x) p = true := by
  show (p.data.isPrefixOf (p ++ x).data) = true
  rw [String.data_append]
  exact isPrefixOf_self_append p.data x.data

/-- DID round trip: stripping after prefixing restores the hash. -/
theorem didToHash_hashToDID (h : String) :
    DIDConverter.didToHash (DIDConverter.hashToDID h) = some h := by
  unfold DIDConverter.didToHash DIDConverter.hashToDID
  rw [strStartsWith_self_append]
  simp [jsReplaceFirst_self_append didMethod h "" (by decide)]

/-- Property lookup distributes over object concatenation: the right (later)
part wins. -/
theorem jsRawGet_append (a b : JsObj) (k : String) :
    jsRawGet (a ++ b) k = (jsRawGet b k).or (jsRawGet a k) := by
  induction a with
  | nil => cases hb : jsRawGet b k <;> simp [jsRawGet, Option.or, hb]
  | cons p a ih =>
      cases p with
      | mk k0 v =>
          rw [List.cons_append]
          cases hb : jsRawGet b k <;> simp [jsRawGet, ih, hb, Option.or]

/-- In the credential subject built by the bridge, `id` reads back the subject
DID whenever the claim bag does not shadow it. -/
theorem jsGetStr_subject_id (sd pk : String) (cl : JsObj) (h : jsRawGet cl "id" = none) :
    jsGetStr ([("id", JsVal.str sd), ("publicKey", JsVal.str pk)] ++ cl) "id" = some sd := by
  simp [jsGetStr, jsRawGet_append, h, jsRawGet, Option.or]

/-- In the credential subject built by the bridge, `publicKey` reads back the
subject key whenever the claim bag does not shadow it. -/
theorem jsGetStr_subject_publicKey (sd pk : String) (cl : JsObj)
    (h : jsRawGet cl "publicKey" = none) :
    jsGetStr ([("id", JsVal.str sd), ("publicKey", JsVal.str pk)] ++ cl) "publicKey" = some pk := by
  simp [jsGetStr, jsRawGet_append, h, jsRawGet, Option.or]

/-- Skipping a binding whose key differs from the looked-up key. -/
theorem jsRawGet_cons_ne (k0 : String) (v : JsVal) (o : JsObj) (k : String) (h : k0 ≠ k) :
    jsRawGet ((k0, v) :: o) k = jsRawGet o k := by
  cases hr : jsRawGet o k <;> simp [jsRawGet, hr, h]

/-- The claim bag reconstructed by `vcToCertificate` agrees, under JSON
semantics, with the original one on every key other than `id` and
`publicKey`. -/
theorem jsGet_reconstructed_claims (sd pk : String) (cl : JsObj) (k : String)
    (hk1 : k ≠ "id") (hk2 : k ≠ "publicKey") :
    jsGet (([("id", JsVal.str sd), ("publicKey", JsVal.str pk)] ++ cl)
        ++ [("id", JsVal.undef), ("publicKey", JsVal.undef)]) k = jsGet cl k := by
  have h1 : jsRawGet ([("id", JsVal.undef), ("publicKey", JsVal.undef)] : JsObj) k = none := by
    simp [jsRawGet, Ne.symm hk1, Ne.symm hk2]
  have hmain : jsRawGet (([("id", JsVal.str sd), ("publicKey", JsVal.str pk)] ++ cl)
      ++ [("id", JsVal.undef), ("publicKey", JsVal.undef)]) k = jsRawGet cl k := by
    rw [List.append_assoc, List.cons_append, List.cons_append, List.nil_append]
    rw [jsRawGet_cons_ne _ _ _ _ (Ne.symm hk1), jsRawGet_cons_ne _ _ _ _ (Ne.symm hk2)]
    rw [jsRawGet_append, h1, Option.none_or]
  simp only [jsGet, hmain]

/-- Round trip through the bridge, generic form: every certificate whose type
string survives the tag surgery, whose subject is a plain identity hash,
whose version is nonzero, whose signature is absent or nonempty, and whose
claim bag does not shadow `id`/`publicKey`, comes back with `id`, type,
subject, subject key, issuer, `validUntil`, `issuedAt`, version, signature and
claims (JSON view) intact, while `status` is reset, `issuerPublicKey` is
emptied, `validFrom` becomes `issuedAt`, `chainDepth` becomes 1,
`serialNumber` becomes the VC URN and the chain link is dropped. -/
theorem vcRoundTripAux (c : Certificate)
    (hty1 : c.certificateType ++ "Certificate" ≠ "VerifiableCredential")
    (hty2 : strToLower (jsReplaceFirst (c.certificateType ++ "Certificate") "Certificate" "")
      = c.certificateType)
    (hty3 : c.certificateType ≠ "")
    (hsub : strStartsWith c.subject "did:" = false)
    (hver : c.version ≠ 0)
    (hsig : c.signature ≠ some "")
    (hclid : jsRawGet (c.claims.getD []) "id" = none)
    (hclpk : jsRawGet (c.claims.getD []) "publicKey" = none) :
    ∃ c2, VCBridge.vcToCertificate (VCBridge.certificateToVC c) = Except.ok c2
      ∧ c2.id = c.id ∧ c2.certificateType = c.certificateType
      ∧ c2.subject = c.subject ∧ c2.subjectPublicKey = c.subjectPublicKey
      ∧ c2.issuer = c.issuer ∧ c2.validUntil = c.validUntil
      ∧ c2.issuedAt = c.issuedAt ∧ c2.version = c.version
      ∧ c2.signature = c.signature
      ∧ (∀ k, k ≠ "id" → k ≠ "publicKey" → jsGetClaims c2.claims k = jsGetClaims c.claims k)
      ∧ c2.status = "valid" ∧ c2.issuerPublicKey = ""
      ∧ c2.validFrom = c.issuedAt ∧ c2.chainDepth = 1
      ∧ c2.serialNumber = "urn:one:cert:" ++ c.id ∧ c2.issuedBy = none := by
  have hfind : (["VerifiableCredential", c.certificateType ++ "Certificate"] :
      List String).find? (fun t => t ≠ "VerifiableCredential")
      = some (c.certificateType ++ "Certificate") := by
    simp [List.find?, hty1]
  have hsigrt : ∀ idd : String,
      (match (match c.signature with
        | some s => if s = "" then none
            else some (ProofConverter.toW3CProof s idd c.issuedAt)
        | none => none).bind ProofConverter.fromW3CProof with
        | some s => if s = "" then none else some s
        | none => none) = c.signature := by
    intro idd
    rcases hs : c.signature with _ | s
    · rfl
    · have hne : s ≠ "" := fun h => hsig (by rw [hs, h])
      simp [ProofConverter.fromW3CProof, ProofConverter.toW3CProof, hne]
  unfold VCBridge.certificateToVC VCBridge.vcToCertificate
  simp only [hsub, Bool.false_eq_true, if_false, hfind, didToHash_hashToDID,
    jsGetStr_subject_id _ _ _ hclid, jsGetStr_subject_publicKey _ _ _ hclpk,
    jsReplaceFirst_self_append "urn:one:cert:" c.id "" (by decide),
    hty2, hty3, if_neg hty3, Option.some_bind, Option.getD_some, hsigrt]
  refine ⟨_, rfl, rfl, rfl, rfl, rfl, rfl, rfl, rfl, ?ver, rfl, ?cl, rfl, rfl, rfl, rfl, rfl, rfl⟩
  case ver => simp [hver]
  case cl =>
    intro k hk1 hk2
    cases hcl : c.claims with
    | none =>
        simp only [jsGetClaims, hcl, Option.getD_none, Option.getD_some]
        exact jsGet_reconstructed_claims _ _ [] k hk1 hk2
    | some o =>
        simp only [jsGetClaims, hcl, Option.getD_some]
        exact jsGet_reconstructed_claims _ _ o k hk1 hk2

/-- C1 counterexample: at the concrete certificate `c1cert` the round trip
through `certificateToVC` and `vcToCertificate` does not restore `validFrom`
(500 becomes 1000 = `issuedAt`), `chainDepth` (0 becomes 1) or `serialNumber`
(`sn-7` becomes the VC URN), refuting the claim that all fields except
`issuerPublicKey` and `status` are restored. -/
theorem vcBridge_roundTrip_counterexample :
    (VCBridge.vcToCertificate (VCBridge.certificateToVC c1cert)).map
        (fun c2 => (c2.validFrom, c2.chainDepth, c2.serialNumber))
      = Except.ok (1000, 1, "urn:one:cert:cert:identity:abc:1")
    ∧ c1cert.validFrom = 500 ∧ c1cert.chainDepth = 0 ∧ c1cert.serialNumber = "sn-7" := by
  exact ⟨rfl, rfl, rfl, rfl⟩

/-- C1 (amended): for every certificate (with a `certificateType` from its
TypeScript union, a plain identity-hash subject, nonzero version, no empty
signature and a claim bag not shadowing `id`/`publicKey`), the round trip
through the bridge restores `id`, `certificateType`, `subject`,
`subjectPublicKey`, `issuer`, `validUntil`, `issuedAt`, `version`,
`signature` and the claims (as JSON) — but `status` is recomputed,
`issuerPublicKey` is looked up externally (left empty), and moreover
`validFrom` becomes `issuedAt`, `chainDepth` becomes 1, `serialNumber`
becomes the VC URN and `issuedBy` is dropped. -/
theorem vcBridge_certificate_roundTrip (c : Certificate)
    (hty : c.certificateType ∈ (["identity", "device", "service", "attestation",
      "delegation", "revocation"] : List String))
    (hsub : strStartsWith c.subject "did:" = false)
    (hver : c.version ≠ 0)
    (hsig : c.signature ≠ some "")
    (hclid : jsRawGet (c.claims.getD []) "id" = none)
    (hclpk : jsRawGet (c.claims.getD []) "publicKey" = none) :
    ∃ c2, VCBridge.vcToCertificate (VCBridge.certificateToVC c) = Except.ok c2
      ∧ c2.id = c.id ∧ c2.certificateType = c.certificateType
      ∧ c2.subject = c.subject ∧ c2.subjectPublicKey = c.subjectPublicKey
      ∧ c2.issuer = c.issuer ∧ c2.validUntil = c.validUntil
      ∧ c2.issuedAt = c.issuedAt ∧ c2.version = c.version
      ∧ c2.signature = c.signature
      ∧ (∀ k, k ≠ "id" → k ≠ "publicKey" → jsGetClaims c2.claims k = jsGetClaims c.claims k)
      ∧ c2.status = "valid" ∧ c2.issuerPublicKey = ""
      ∧ c2.validFrom = c.issuedAt ∧ c2.chainDepth = 1
      ∧ c2.serialNumber = "urn:one:cert:" ++ c.id ∧ c2.issuedBy = none := by
  have hty2 : c.certificateType = "identity" ∨ c.certificateType = "device"
      ∨ c.certificateType = "service" ∨ c.certificateType = "attestation"
      ∨ c.certificateType = "delegation" ∨ c.certificateType = "revocation" := by
    simpa using hty
  refine vcRoundTripAux c ?_ ?_ ?_ hsub hver hsig hclid hclpk <;>
    rcases hty2 with h | h | h | h | h | h <;> rw [h] <;> decide

/-- C1 witness: the amended round-trip theorem applied to the concrete
certificate `c1cert`. -/
theorem vcBridge_certificate_roundTrip_witness :
    ∃ c2, VCBridge.vcToCertificate (VCBridge.certificateToVC c1cert) = Except.ok c2
      ∧ c2.version = c1cert.version ∧ c2.subject = c1cert.subject := by
  obtain ⟨c2, h1, h2, h3, h4, h5, h6, h7, h8, h9, h10, h11, h12, h13, h14, h15, h16, h17⟩ :=
    vcBridge_certificate_roundTrip c1cert (by decide) (by decide) (by decide)
      (by decide) (by decide) (by decide)
  exact ⟨c2, h1, h9, h4⟩

/-- C2 evidence: `CAPlan.importVC` performs no reconciliation — importing the
very same document a second time succeeds again and stores a second copy,
instead of rejecting it as stale or duplicate with the existing version. -/
theorem importVC_no_reconciliation :
    CAPlan.importVC [] vc2demo = Except.ok ([c2demo], c2demo.id)
    ∧ CAPlan.importVC [c2demo] vc2demo = Except.ok ([c2demo, c2demo], c2demo.id) := by
  exact ⟨rfl, rfl⟩

/-- C3 evidence: revoking does produce `validUntil = now - 1 < now`,
`status = revoked`, `version = prev.version + 1`, and subsequent verification
reports the revocation — but the supplied reason is dropped: the result is
independent of it, and the `Certificate` recipe has no field that could
record it. -/
theorem revokeCertificate_drops_reason :
    CAModel.revokeCertificate [p3cert] (some "key compromised") 5000
      = CAModel.revokeCertificate [p3cert] (some "totally different reason") 5000
    ∧ CAModel.revokeCertificate [p3cert] (some "key compromised") 5000
      = Except.ok (p3revoked, [StoreEffect.stored p3revoked, StoreEffect.signedObj p3revoked])
    ∧ p3revoked.validUntil = 4999 ∧ p3revoked.status = "revoked" ∧ p3revoked.version = 2
    ∧ CAModel.verifyCertificate p3revoked 99999
      = { valid := false, reason := some "Certificate is revoked" } := by
  exact ⟨rfl, rfl, rfl, rfl, rfl, rfl⟩

/-- C4 evidence: `verifyCertificate` accepts a certificate inside its validity
window whatever its signature is — the signature branch of the source is an
unimplemented TODO, so a garbage signature is never rejected as
`bad_signature`. -/
theorem verifyCertificate_ignores_signature :
    CAModel.verifyCertificate p4cert 1000 = { valid := true, reason := none }
    ∧ p4cert.signature = some "garbage-not-a-signature" := by
  exact ⟨rfl, rfl⟩

/-- C5 evidence: `reduceCertificate` accepts a new `validUntil` that is
already in the past (conceptually `t ≤ now()`): with the latest version valid
until 100000, reducing to 10 succeeds and stores a version with
`validUntil = 10` — there is no `UseRevoke` rejection in the code path. -/
theorem reduceCertificate_accepts_past :
    CAModel.reduceCertificate [p3cert] 10
      = Except.ok ({ p3cert with validUntil := 10, version := 2 },
          [StoreEffect.stored { p3cert with validUntil := 10, version := 2 },
           StoreEffect.signedObj { p3cert with validUntil := 10, version := 2 }])
    ∧ CAModel.reduceCertificate [p3cert] 100000
      = Except.error "New validUntil must be earlier than current validUntil" := by
  exact ⟨rfl, rfl⟩

/-- C6: each lifecycle transition derives the new version from the latest
stored version, bumps `version` by one, changes only `validUntil` (revocation
also `status`), leaves every other field — `id`, issuer, subject, subject key,
claims, serial number, `issuedBy`, `chainDepth` — untouched, and stores then
signs the new version. -/
theorem lifecycle_version_frame (versions : List Certificate) (prev : Certificate)
    (hlast : versions.getLast? = some prev)
    (additionalDays t now : Int) (reason : Option String)
    (hred : t < prev.validUntil) :
    CAModel.extendCertificate versions additionalDays
      = Except.ok ({ prev with
            validUntil := prev.validUntil + additionalDays * (24 * 60 * 60 * 1000)
            version := prev.version + 1 },
          [StoreEffect.stored { prev with
              validUntil := prev.validUntil + additionalDays * (24 * 60 * 60 * 1000)
              version := prev.version + 1 },
           StoreEffect.signedObj { prev with
              validUntil := prev.validUntil + additionalDays * (24 * 60 * 60 * 1000)
              version := prev.version + 1 }])
    ∧ CAModel.reduceCertificate versions t
      = Except.ok ({ prev with validUntil := t, version := prev.version + 1 },
          [StoreEffect.stored { prev with validUntil := t, version := prev.version + 1 },
           StoreEffect.signedObj { prev with validUntil := t, version := prev.version + 1 }])
    ∧ CAModel.revokeCertificate versions reason now
      = Except.ok ({ prev with
            status := "revoked"
            validUntil := now - 1
            version := prev.version + 1 },
          [StoreEffect.stored { prev with
              status := "revoked"
              validUntil := now - 1
              version := prev.version + 1 },
           StoreEffect.signedObj { prev with
              status := "revoked"
              validUntil := now - 1
              version := prev.version + 1 }]) := by
  refine ⟨?_, ?_, ?_⟩
  · simp [CAModel.extendCertificate, hlast]
  · simp [CAModel.reduceCertificate, hlast, not_le.mpr hred]
  · simp [CAModel.revokeCertificate, hlast]

/-- C6 witness: the frame theorem applied to the concrete one-version store
`[p3cert]` with a reduction target strictly below `p3cert.validUntil`. -/
theorem lifecycle_version_frame_witness :
    CAModel.reduceCertificate [p3cert] 50000
      = Except.ok ({ p3cert with validUntil := 50000, version := p3cert.version + 1 },
          [StoreEffect.stored { p3cert with validUntil := 50000, version := p3cert.version + 1 },
           StoreEffect.signedObj { p3cert with
              validUntil := 50000
              version := p3cert.version + 1 }]) := by
  exact (lifecycle_version_frame [p3cert] p3cert (by decide) 30 50000 7000
    (some "w") (by decide)).2.1

/-- C7 counterexample: a trusted relationship with every adjustment neutral
(no keys manager, no recency data, no expiry) evaluates with confidence 0.9,
not the claimed base confidence 0.5 for `trusted`. -/
theorem evaluateTrust_base_counterexample :
    (TrustModel.evaluateTrust false
        (some { peer := "p", peerPublicKey := "k", status := TrustStatus.trusted,
                trustLevel := none, establishedAt := 0, lastVerified := none,
                validUntil := none })
        CertLookup.noManager 0 "general").confidence = 9/10
    ∧ ((9 : ℚ)/10 ≠ 5/10) := by
  constructor
  · rfl
  · norm_num

/-- C7 (amended): the base scores taken from the `status` switch are level
0.9 / 0.3 / 0.1 / 0.0 and confidence 0.9 / 0.4 / 0.8 / 1.0 for trusted /
pending / untrusted / revoked, visible in the result whenever the
certificate, recency, expiration and context adjustments are all neutral. -/
theorem evaluateTrust_base_values (peer pk : String) (tl : Option String)
    (est now : Int) :
    TrustModel.evaluateTrust false
        (some { peer := peer, peerPublicKey := pk, status := TrustStatus.trusted,
                trustLevel := tl, establishedAt := est, lastVerified := none,
                validUntil := none }) CertLookup.noManager now "general"
      = { level := 9/10, confidence := 9/10, reason := "trusted", trustLevel := tl }
    ∧ TrustModel.evaluateTrust false
        (some { peer := peer, peerPublicKey := pk, status := TrustStatus.pending,
                trustLevel := tl, establishedAt := est, lastVerified := none,
                validUntil := none }) CertLookup.noManager now "general"
      = { level := 3/10, confidence := 4/10, reason := "pending", trustLevel := tl }
    ∧ TrustModel.evaluateTrust false
        (some { peer := peer, peerPublicKey := pk, status := TrustStatus.untrusted,
                trustLevel := tl, establishedAt := est, lastVerified := none,
                validUntil := none }) CertLookup.noManager now "general"
      = { level := 1/10, confidence := 8/10, reason := "untrusted", trustLevel := tl }
    ∧ TrustModel.evaluateTrust false
        (some { peer := peer, peerPublicKey := pk, status := TrustStatus.revoked,
                trustLevel := tl, establishedAt := est, lastVerified := none,
                validUntil := none }) CertLookup.noManager now "general"
      = { level := 0, confidence := 1, reason := "revoked", trustLevel := tl } := by
  refine ⟨?_, ?_, ?_, ?_⟩ <;> rfl

/-- Base scores from the status switch lie in the unit interval. -/
theorem baseScores_bounds (s : TrustStatus) :
    0 ≤ (TrustModel.baseScores s).1 ∧ (TrustModel.baseScores s).1 ≤ 1
    ∧ 0 ≤ (TrustModel.baseScores s).2 ∧ (TrustModel.baseScores s).2 ≤ 1 := by
  cases s <;> norm_num [TrustModel.baseScores]

/-- The certificate-validation adjustment preserves the unit interval. -/
theorem certAdjust_bounds (lookup : CertLookup) (c : ℚ) (h0 : 0 ≤ c) (h1 : c ≤ 1) :
    0 ≤ TrustModel.certAdjust lookup c ∧ TrustModel.certAdjust lookup c ≤ 1 := by
  cases lookup <;> simp only [TrustModel.certAdjust]
  · exact ⟨h0, h1⟩
  · exact ⟨le_min (by norm_num) (by linarith), min_le_left _ _⟩
  · exact ⟨h0, h1⟩
  · exact ⟨le_max_left _ _, max_le (by norm_num) (by linarith)⟩

/-- The recency adjustment preserves the unit interval. -/
theorem recencyAdjust_bounds (lastVerified : Option Int) (now : Int) (c : ℚ)
    (h0 : 0 ≤ c) (h1 : c ≤ 1) :
    0 ≤ TrustModel.recencyAdjust lastVerified now c
    ∧ TrustModel.recencyAdjust lastVerified now c ≤ 1 := by
  cases lastVerified with
  | none => exact ⟨h0, h1⟩
  | some lv =>
      simp only [TrustModel.recencyAdjust]
      split_ifs
      · exact ⟨le_min (by norm_num) (by linarith), min_le_left _ _⟩
      · exact ⟨le_max_left _ _, max_le (by norm_num) (by linarith)⟩
      · exact ⟨h0, h1⟩

/-- C8: on every execution path — error, unknown peer, certificate boost or
penalty, recency boost or penalty, expiration, context rejection and the
plain path — `evaluateTrust` returns a level and a confidence inside the
unit interval. -/
theorem evaluateTrust_bounds (threw : Bool) (relationship : Option TrustRelationship)
    (lookup : CertLookup) (now : Int) (context : String) :
    0 ≤ (TrustModel.evaluateTrust threw relationship lookup now context).level
    ∧ (TrustModel.evaluateTrust threw relationship lookup now context).level ≤ 1
    ∧ 0 ≤ (TrustModel.evaluateTrust threw relationship lookup now context).confidence
    ∧ (TrustModel.evaluateTrust threw relationship lookup now context).confidence ≤ 1 := by
  cases threw with
  | true => norm_num [TrustModel.evaluateTrust]
  | false =>
      cases relationship with
      | none => norm_num [TrustModel.evaluateTrust]
      | some rel =>
          obtain ⟨hl0, hl1, hb0, hb1⟩ := baseScores_bounds rel.status
          obtain ⟨hd0, hd1⟩ := certAdjust_bounds lookup _ hb0 hb1
          obtain ⟨he0, he1⟩ :=
            recencyAdjust_bounds rel.lastVerified now _ hd0 hd1
          simp only [TrustModel.evaluateTrust]
          split_ifs <;>
            first
              | exact ⟨hl0, hl1, he0, he1⟩
              | norm_num

/-- C9: with no stored `TrustRelationship` for the peer, `evaluateTrust`
returns exactly level 0, confidence 0 and reason `unknown`, for every
context and every certificate-lookup outcome, without raising an error. -/
theorem evaluateTrust_unknown_peer (lookup : CertLookup) (now : Int) (context : String) :
    TrustModel.evaluateTrust false none lookup now context
      = { level := 0, confidence := 0, reason := "unknown", trustLevel := none } := by
  rfl

/-- C10: after every `recordEvent` the in-memory cache holds at most 1000
events, it is exactly the suffix of the pushed list that keeps the most
recent 1000 entries in insertion order, and it is a suffix of the previous
cache extended by the new event. -/
theorem recordEvent_cache_bound (events : List AuditEvent) (event : AuditEvent) :
    (AuditTrailService.recordEvent events event).length ≤ 1000
    ∧ AuditTrailService.recordEvent events event
        = (events ++ [event]).drop ((events ++ [event]).length - 1000)
    ∧ AuditTrailService.recordEvent events event <:+ (events ++ [event]) := by
  unfold AuditTrailService.recordEvent
  dsimp only
  refine ⟨?_, ?_, ?_⟩
  · split_ifs with h
    · rw [List.length_drop]
      omega
    · omega
  · split_ifs with h
    · rfl
    · rw [Nat.sub_eq_zero_of_le (by omega), List.drop_zero]
  · split_ifs with h
    · exact List.drop_suffix _ _
    · exact List.suffix_refl _

end TrustCore
